import Mathlib

/-!
Verification development for the vidscribe batch-transcription pipeline.

Shallow embedding of the Python sources:
  * `src/vidscribe/utils/formatters.py`   — subtitle timestamp rendering
  * `src/vidscribe/core/engine.py`        — backend selection, `transcribe_video` cleanup
  * `src/vidscribe/downloaders/youtube.py`— channel enumeration (`get_channel_videos`)
  * `src/vidscribe/processors/playlist.py`— the batch pipeline (`PlaylistProcessor`)

Python floats are embedded as rationals (the exact value held by the float);
machine wall-clock timestamps ("Processed At") are not modelled.  External
collaborators (yt-dlp, whisper, ffmpeg, the file system) are modelled as
oracle functions supplied as parameters.
-/

namespace Vidscribe

/-! ### Decimal rendering helpers (embedding of Python string formatting) -/

/-- Character for the decimal digit `d` (`d < 10` in every use). -/
def digitChar (d : Nat) : Char := Char.ofNat (48 + d)

/-- Fuel-based accumulator loop producing the decimal digits of `n`
    (most significant first), prepended to `acc`. -/
def natDigitsAux : Nat → Nat → List Char → List Char
  | 0, _, acc => acc
  | fuel + 1, n, acc =>
    let acc2 := digitChar (n % 10) :: acc
    if n < 10 then acc2 else natDigitsAux fuel (n / 10) acc2

/-- Decimal digit characters of `n` (Python `str(n)` for a non-negative int). -/
def natChars (n : Nat) : List Char := natDigitsAux (n + 1) n []

/-- Zero-pad the decimal rendering of `n` on the left to width `w`
    (Python format spec `0{w}d` for a non-negative value). -/
def zpadL (w : Nat) (n : Nat) : List Char :=
  List.replicate (w - (natChars n).length) '0' ++ natChars n

/-- Python `a % b` on floats for `b > 0`: the exact remainder
    `a - b * floor (a / b)`. -/
def qmod (a b : ℚ) : ℚ := a - b * (⌊a / b⌋ : ℚ)

/-- Round to the nearest integer, ties to even — the rounding used by
    Python `format` on an exactly-represented value. -/
def roundHalfEven (q : ℚ) : ℤ :=
  let f : ℤ := ⌊q⌋
  let r : ℚ := q - (f : ℚ)
  if r < 1/2 then f
  else if 1/2 < r then f + 1
  else if f % 2 = 0 then f else f + 1

/-- Embedding of Python `f"{s:06.3f}"` for `s ≥ 0`: milliseconds are rounded
    half-to-even, the integer part is left-padded with zeros to width 2
    (total width 6), the fractional part has exactly 3 digits. -/
def fmt63 (s : ℚ) : List Char :=
  let m : Nat := (roundHalfEven (s * 1000)).toNat
  zpadL 2 (m / 1000) ++ '.' :: zpadL 3 (m % 1000)

/-! ### `SubtitleFormatter` (src/vidscribe/utils/formatters.py) -/

/-- Shared body of `format_timestamp_srt` / `format_timestamp_vtt`:
    `hours = int(seconds // 3600)`, `minutes = int((seconds % 3600) // 60)`,
    `secs = seconds % 60`, rendered `"{hours:02d}:{minutes:02d}:{secs:06.3f}"`. -/
def timestampChars (seconds : ℚ) : List Char :=
  let hours : Nat := (⌊seconds / 3600⌋ : ℤ).toNat
  let minutes : Nat := (⌊qmod seconds 3600 / 60⌋ : ℤ).toNat
  let secs : ℚ := qmod seconds 60
  zpadL 2 hours ++ ':' :: (zpadL 2 minutes ++ ':' :: fmt63 secs)

/-- The character substitution performed by `.replace(".", ",")`: a
    single-character pattern replace is a per-character map. -/
def dotComma (c : Char) : Char := if c = '.' then ',' else c

/-- Embedding of `SubtitleFormatter.format_timestamp_vtt`. -/
def format_timestamp_vtt (seconds : ℚ) : String := String.mk (timestampChars seconds)

/-- Embedding of `SubtitleFormatter.format_timestamp_srt`: the VTT rendering
    with the decimal point replaced by a comma. -/
def format_timestamp_srt (seconds : ℚ) : String :=
  String.mk ((timestampChars seconds).map dotComma)

/-! Specification-side timestamp shape, written from the claim's words:
`HH:MM:SS<sep>mmm` with `HH = floor(d/3600)` and `MM = floor((d mod 3600)/60)`
zero-padded to 2 digits, and the seconds field `d mod 60` rounded to 3 decimal
places with the seconds part zero-padded to 2 digits and milliseconds to 3. -/

/-- Seconds field of the specified shape: `d mod 60` rounded to 3 decimals,
    split as `SS<sep>mmm`. -/
def secondsFieldSpec (sep : Char) (d : ℚ) : List Char :=
  let r : Nat := (roundHalfEven (qmod d 60 * 1000)).toNat
  zpadL 2 (r / 1000) ++ sep :: zpadL 3 (r % 1000)

/-- The claim's specified timestamp string with separator `sep`. -/
def timestampSpec (sep : Char) (d : ℚ) : List Char :=
  zpadL 2 (⌊d / 3600⌋ : ℤ).toNat ++ ':' ::
    (zpadL 2 (⌊qmod d 3600 / 60⌋ : ℤ).toNat ++ ':' :: secondsFieldSpec sep d)

/-- Specified SRT timestamp (comma separator). -/
def srt_spec (d : ℚ) : String := String.mk (timestampSpec ',' d)

/-- Specified VTT timestamp (period separator). -/
def vtt_spec (d : ℚ) : String := String.mk (timestampSpec '.' d)

/-! ### `TranscriptionEngine` construction (src/vidscribe/core/engine.py) -/

/-- The module-level runtime environment probed at import time:
    `platform.system() == "Darwin" and platform.machine() == "arm64"`,
    whether `import mlx_whisper` succeeds, whether `import whisper` succeeds. -/
structure PyEnv where
  darwin_arm64 : Bool
  mlx_import_ok : Bool
  whisper_import_ok : Bool

/-- Module-level `is_mac_silicon`. -/
def is_mac_silicon (e : PyEnv) : Bool := e.darwin_arm64

/-- Module-level `mlx_available`: starts `False` and is set `True` only when
    `is_mac_silicon` holds and `import mlx_whisper` succeeds. -/
def mlx_available (e : PyEnv) : Bool := e.darwin_arm64 && e.mlx_import_ok

/-- Module-level `whisper_available`: whether `import whisper` succeeds. -/
def whisper_available (e : PyEnv) : Bool := e.whisper_import_ok

/-- The `TranscriptionEngine.SUPPORTED_MODELS` list. -/
def SUPPORTED_MODELS : List String := ["tiny", "base", "small", "medium", "large"]

/-- The two inference backends. -/
inductive Backend
  | mlx
  | whisper
deriving DecidableEq

/-- Errors raised by `TranscriptionEngine.__init__`: `ValueError` on an invalid
    model size, `RuntimeError("No transcription backend available ...")` when
    neither backend is usable. -/
inductive EngineError
  | invalidModelSize
  | backendUnavailable
deriving DecidableEq

/-- Outcome of a successful construction: the selected backend and whether the
    "MLX requested but not available" warning was logged. -/
structure EngineInit where
  backend : Backend
  warnedFallback : Bool
deriving DecidableEq

/-- Embedding of `TranscriptionEngine.__init__` (backend resolution part,
    up to and including the fail-fast check; `_load_model` is a later step).
    `use_mlx = none` is Python `None` (auto-detect). -/
def engineInit (model_size : String) (use_mlx : Option Bool) (e : PyEnv) :
    Except EngineError EngineInit :=
  if model_size ∈ SUPPORTED_MODELS then
    -- if use_mlx is None: self.use_mlx = mlx_available and is_mac_silicon
    -- else:              self.use_mlx = use_mlx and mlx_available
    let use0 : Bool :=
      match use_mlx with
      | none => mlx_available e && is_mac_silicon e
      | some b => b && mlx_available e
    -- if use_mlx and not mlx_available: warn; self.use_mlx = False
    let warned : Bool := use_mlx.getD false && !mlx_available e
    let use1 : Bool := if warned then false else use0
    -- if not self.use_mlx and not whisper_available: raise RuntimeError(...)
    if !use1 && !whisper_available e then Except.error EngineError.backendUnavailable
    else Except.ok ⟨if use1 then Backend.mlx else Backend.whisper, warned⟩
  else Except.error EngineError.invalidModelSize

/-- Specification-side helper: the outcome when the resolution settles on the
    generic backend — use it when available, otherwise fail fast with the
    backend-unavailable error. -/
def genericResolve (e : PyEnv) (warned : Bool) : Except EngineError EngineInit :=
  if whisper_available e then Except.ok ⟨Backend.whisper, warned⟩
  else Except.error EngineError.backendUnavailable

/-! ### `TranscriptionEngine.transcribe_video` cleanup (src/vidscribe/core/engine.py) -/

/-- Oracle outcomes of the collaborator calls made by `transcribe_video`:
    whether `_extract_audio` succeeds (else it raises), whether `ffprobe`
    inside `_get_video_metadata` succeeds (its failures are caught internally
    and never escape), and whether `transcribe_audio` succeeds (else it
    raises).  The initial `validate_file_path` check precedes the creation of
    the temporary file and is outside this model. -/
structure VideoRunEnv where
  extract_ok : Bool
  probe_ok : Bool
  transcribe_ok : Bool

/-- Observable outcome of `transcribe_video`: whether the temporary extracted
    audio file still exists after the call returns or raises, and whether the
    call returned normally or raised (with the wrapped message). -/
structure VideoRunOut where
  tmpAudioExists : Bool
  result : Except String Unit

/-- Embedding of `transcribe_video`: `NamedTemporaryFile(delete=False)` creates
    the temporary audio file; the body runs extraction, metadata probe and
    transcription inside `try`; the `finally` block removes the file unless
    `keep_audio` was passed.  An exception from the probe is swallowed inside
    `_get_video_metadata` and does not alter control flow. -/
def transcribe_video (env : VideoRunEnv) (keep_audio : Bool) : VideoRunOut :=
  let tmpExists := true
  let body : Except String Unit :=
    if !env.extract_ok then Except.error "Failed to extract audio"
    else if !env.transcribe_ok then Except.error "Failed to transcribe audio"
    else Except.ok ()
  -- finally: if not keep_audio and os.path.exists(audio_path): os.remove(audio_path)
  let tmpExists2 := if !keep_audio && tmpExists then false else tmpExists
  { tmpAudioExists := tmpExists2, result := body }

/-! ### `YouTubeDownloader.get_channel_videos` (src/vidscribe/downloaders/youtube.py) -/

/-- Python truthiness of the `Optional[int]` limit argument:
    `None` and `0` are falsy. -/
def limitTruthy : Option Nat → Bool
  | none => false
  | some n => n != 0

/-- The URL handed to `yt_dlp.extract_info`:
    `url = f"{channel_url}/videos" if limit else channel_url`. -/
def channelQueryUrl (channel_url : String) (limit : Option Nat) : String :=
  if limitTruthy limit then channel_url ++ "/videos" else channel_url

/-- The watch URL built for an enumerated entry id:
    `f"https://www.youtube.com/watch?v={entry['id']}"`. -/
def watchUrl (id : String) : String := "https://www.youtube.com/watch?v=" ++ id

/-- List-comprehension `[watch_url(e) for e in entries if e]`: falsy (absent)
    entries are skipped, the rest are mapped to watch URLs. -/
def extractUrls (entries : List (Option String)) : List String :=
  (entries.filterMap id).map watchUrl

/-- Embedding of `get_channel_videos`.  The collaborator `fetch` models
    `yt_dlp.extract_info`: `some entries` when the result has an `entries`
    key (each entry `none` when falsy), `none` when the key is missing or an
    exception occurs — both of which make the source return `[]`. -/
def get_channel_videos (fetch : String → Option (List (Option String)))
    (channel_url : String) (limit : Option Nat) : List String :=
  match fetch (channelQueryUrl channel_url limit) with
  | some entries =>
    let video_urls := extractUrls entries
    -- if limit: video_urls = video_urls[:limit]
    if limitTruthy limit then video_urls.take (limit.getD 0) else video_urls
  | none => []

/-! ### `PlaylistProcessor` batch pipeline (src/vidscribe/processors/playlist.py) -/

/-- The `self.stats` dictionary.  Counters are naturals; the cumulative
    duration and transcription time are rationals (exact float values). -/
structure Stats where
  total_videos : Nat
  processed : Nat
  failed : Nat
  skipped : Nat
  total_duration : ℚ
  total_transcription_time : ℚ
deriving DecidableEq

/-- Initial `self.stats` as set by `PlaylistProcessor.__init__`: all zero. -/
def initStats : Stats := ⟨0, 0, 0, 0, 0, 0⟩

/-- Metadata and transcription data of one successfully acquired and
    transcribed video: title, source duration, inference time, text. -/
structure VideoData where
  title : String
  duration : ℚ
  ttime : ℚ
  text : String
deriving DecidableEq

/-- Oracle outcome of the collaborator calls made while processing one item
    inside `_process_single_video`:
    * `success v` — metadata, download and transcription all succeed;
    * `infoNone` — `get_video_info` returns `None`;
    * `downloadNone` — `download_video` returns `None`;
    * `exn` — an `Exception` is raised (caught by `_process_single_video`,
      which then returns `None`); modelled as raised before the statistics
      updates;
    * `kbInterrupt` — a `KeyboardInterrupt` is raised during the item's
      processing; it passes through `except Exception` and propagates to the
      batch loop, modelled as raised before any effect of the item. -/
inductive StepOutcome
  | success (v : VideoData)
  | infoNone
  | downloadNone
  | exn
  | kbInterrupt
deriving DecidableEq

/-- One item's oracle behaviour: the outcome inside the per-item `try` block,
    and whether a `KeyboardInterrupt` is delivered in the loop statements
    after the `try` block (`progress.advance` / the `time.sleep(1)` inter-item
    pause), which the loop does not catch. -/
structure ItemStep where
  outcome : StepOutcome
  pauseInterrupt : Bool
deriving DecidableEq

/-- One row written to the output CSV.  The `Processed At` wall-clock column
    is not modelled. -/
structure Row where
  index : Nat
  title : String
  url : String
  duration : ℚ
  ttime : ℚ
  text : String
deriving DecidableEq

/-- One line of the output sink: the schema header or a record row. -/
inductive CsvLine
  | header
  | record (r : Row)
deriving DecidableEq

/-- Return/raise behaviour of `_process_single_video`. -/
inductive SingleResult
  | someRow (r : Row)
  | noneRow
  | interrupted
deriving DecidableEq

/-- Embedding of `_process_single_video`: on full success it adds the video
    duration and transcription time to the statistics and returns the CSV row
    dictionary; on a failed metadata lookup, failed download or caught
    exception it returns `None`; a `KeyboardInterrupt` propagates. -/
def process_single_video (stats : Stats) (o : StepOutcome) (url : String) (index : Nat) :
    Stats × SingleResult :=
  match o with
  | StepOutcome.success v =>
    ({ stats with
        total_duration := stats.total_duration + v.duration,
        total_transcription_time := stats.total_transcription_time + v.ttime },
      SingleResult.someRow ⟨index, v.title, url, v.duration, v.ttime, v.text⟩)
  | StepOutcome.infoNone => (stats, SingleResult.noneRow)
  | StepOutcome.downloadNone => (stats, SingleResult.noneRow)
  | StepOutcome.exn => (stats, SingleResult.noneRow)
  | StepOutcome.kbInterrupt => (stats, SingleResult.interrupted)

/-- How the `for` loop of `_process_video_list` ended:
    ran through all items, left via `break` on a caught `KeyboardInterrupt`,
    or was aborted by an uncaught `KeyboardInterrupt` delivered outside the
    `try` block (the interrupt then propagates out of the function). -/
inductive LoopExit
  | completed
  | brokeOut
  | aborted
deriving DecidableEq

/-- Embedding of the `for i, url in enumerate(video_urls, 1)` loop of
    `_process_video_list`.  On a `Some` result the row is written and flushed
    and `processed` incremented; on `None`, `failed` is incremented; a
    `KeyboardInterrupt` inside the `try` causes `break`; an interrupt during
    the inter-item pause (taken only when `i < len(video_urls)`) aborts the
    loop with the records written so far preserved (the file is closed by the
    `with` block as the exception unwinds). -/
def runList (b : Nat → ItemStep) : Stats → List CsvLine → Nat → List String →
    Stats × List CsvLine × LoopExit
  | stats, sink, _, [] => (stats, sink, LoopExit.completed)
  | stats, sink, i, url :: rest =>
    match process_single_video stats (b i).outcome url i with
    | (_, SingleResult.interrupted) => (stats, sink, LoopExit.brokeOut)
    | (stats1, SingleResult.someRow r) =>
      let stats2 := { stats1 with processed := stats1.processed + 1 }
      let sink2 := sink ++ [CsvLine.record r]
      if !rest.isEmpty && (b i).pauseInterrupt then (stats2, sink2, LoopExit.aborted)
      else runList b stats2 sink2 (i + 1) rest
    | (stats1, SingleResult.noneRow) =>
      let stats2 := { stats1 with failed := stats1.failed + 1 }
      if !rest.isEmpty && (b i).pauseInterrupt then (stats2, sink, LoopExit.aborted)
      else runList b stats2 sink (i + 1) rest

/-- The sink content right after the file is opened, before the loop runs:
    `file_exists = csv_path.exists()`; the file is opened in mode `"a"` when
    it exists (content kept) and `"w"` otherwise, and `writer.writeheader()`
    runs only when it did not exist. -/
def initialSink : Option (List CsvLine) → List CsvLine
  | some content => content
  | none => [CsvLine.header]

/-- Embedding of `_process_video_list`: the destination is `none` when the
    CSV file does not exist; open it (writing the header exactly when it is
    new), then run the loop over the enumerated URLs. -/
def process_video_list (b : Nat → ItemStep) (video_urls : List String)
    (dest : Option (List CsvLine)) (stats : Stats) : Stats × List CsvLine × LoopExit :=
  runList b stats (initialSink dest) 1 video_urls

/-- The summary table built by `_print_summary`: the three counter rows, and
    the optional duration, transcription-time and processing-speed rows. -/
structure Summary where
  total_videos : Nat
  processed : Nat
  failed : Nat
  durationRow : Option ℚ
  transRow : Option ℚ
  speedRow : Option ℚ
deriving DecidableEq

/-- Embedding of `_print_summary`: the duration row appears when
    `total_duration > 0`, the transcription-time row when
    `total_transcription_time > 0`, and the speed ratio row only inside the
    latter branch and additionally guarded by `total_duration > 0`. -/
def print_summary (stats : Stats) : Summary :=
  { total_videos := stats.total_videos
    processed := stats.processed
    failed := stats.failed
    durationRow :=
      if 0 < stats.total_duration then some (stats.total_duration / 60) else none
    transRow :=
      if 0 < stats.total_transcription_time then
        some (stats.total_transcription_time / 60)
      else none
    speedRow :=
      if 0 < stats.total_transcription_time then
        if 0 < stats.total_duration then
          some (stats.total_duration / stats.total_transcription_time)
        else none
      else none }

/-- Observable outcome of one batch run: the final statistics, the final
    destination state (unchanged when the run returned before opening it),
    the printed summary (`none` when `_print_summary` was never reached), the
    "No videos found" notice, and whether a `KeyboardInterrupt` propagated
    out of the call (the CLI then reports an interruption and exits non-zero). -/
structure RunResult where
  stats : Stats
  dest : Option (List CsvLine)
  summary : Option Summary
  noVideosNotice : Bool
  aborted : Bool
deriving DecidableEq

/-- Shared body of `process_playlist` and `process_channel` (duplicated
    verbatim in the source): empty enumeration prints the notice and returns
    early; otherwise `total_videos` is set, `_process_video_list` runs, and
    `_print_summary` is reached unless an uncaught interrupt unwound it. -/
def runBatch (b : Nat → ItemStep) (video_urls : List String)
    (dest : Option (List CsvLine)) : RunResult :=
  if video_urls.isEmpty then
    { stats := initStats, dest := dest, summary := none,
      noVideosNotice := true, aborted := false }
  else
    let stats0 := { initStats with total_videos := video_urls.length }
    match process_video_list b video_urls dest stats0 with
    | (stats1, sink1, LoopExit.aborted) =>
      { stats := stats1, dest := some sink1, summary := none,
        noVideosNotice := false, aborted := true }
    | (stats1, sink1, _) =>
      { stats := stats1, dest := some sink1, summary := some (print_summary stats1),
        noVideosNotice := false, aborted := false }

/-- Embedding of `process_playlist`; `video_urls` is the enumeration returned
    by the `get_playlist_videos` collaborator call. -/
def process_playlist (b : Nat → ItemStep) (video_urls : List String)
    (dest : Option (List CsvLine)) : RunResult :=
  runBatch b video_urls dest

/-- Embedding of `process_channel`: enumeration via `get_channel_videos`,
    then the same body as `process_playlist`. -/
def process_channel (b : Nat → ItemStep) (fetch : String → Option (List (Option String)))
    (channel_url : String) (limit : Option Nat) (dest : Option (List CsvLine)) : RunResult :=
  runBatch b (get_channel_videos fetch channel_url limit) dest

/-! ### Derived descriptions of a run, used to state the claims -/

/-- The records a window of all-successful items appends to the sink, one per
    item in order, 1 row per video, indexed from `i`. -/
def successRecords (V : Nat → VideoData) : Nat → List String → List CsvLine
  | _, [] => []
  | i, url :: rest =>
    CsvLine.record ⟨i, (V i).title, url, (V i).duration, (V i).ttime, (V i).text⟩ ::
      successRecords V (i + 1) rest

/-- Whether an outcome is a full success (produces a CSV row). -/
def isSuccess : StepOutcome → Bool
  | StepOutcome.success _ => true
  | _ => false

/-- The records appended to the sink by a window of items that runs to
    completion: one record per successful item, nothing for failures. -/
def runRecords (b : Nat → ItemStep) : Nat → List String → List CsvLine
  | _, [] => []
  | i, url :: rest =>
    (match (b i).outcome with
     | StepOutcome.success v =>
       [CsvLine.record ⟨i, v.title, url, v.duration, v.ttime, v.text⟩]
     | _ => []) ++ runRecords b (i + 1) rest

/-- Number of successful items in a window. -/
def successCount (b : Nat → ItemStep) : Nat → List String → Nat
  | _, [] => 0
  | i, _ :: rest => (if isSuccess (b i).outcome then 1 else 0) + successCount b (i + 1) rest

/-- Number of header lines in a sink. -/
def headerCount : List CsvLine → Nat
  | [] => 0
  | CsvLine.header :: rest => headerCount rest + 1
  | CsvLine.record _ :: rest => headerCount rest

/-- An item step with no interrupt anywhere: the `try` body does not raise
    `KeyboardInterrupt` and none is delivered during the pause. -/
def quietStep (s : ItemStep) : Prop :=
  s.outcome ≠ StepOutcome.kbInterrupt ∧ s.pauseInterrupt = false

instance (s : ItemStep) : Decidable (quietStep s) := by
  unfold quietStep; infer_instance

/-! ### Concrete sample inputs (used by witnesses and counterexamples) -/

/-- A sample video. -/
def vDat : VideoData := ⟨"t", 10, 2, "txt"⟩

/-- Behaviour where every item succeeds, quietly. -/
def bOk : Nat → ItemStep := fun _ => ⟨StepOutcome.success vDat, false⟩

/-- Behaviour used for the cancellation counterexample: every item succeeds
    but a `KeyboardInterrupt` is delivered during the inter-item pause. -/
def bPause : Nat → ItemStep := fun _ => ⟨StepOutcome.success vDat, true⟩

/-- Behaviour whose successes carry a zero source duration but a positive
    transcription time. -/
def bZeroDur : Nat → ItemStep := fun _ => ⟨StepOutcome.success ⟨"t", 0, 1, "x"⟩, false⟩

/-- Sample per-index video data. -/
def vIdx : Nat → VideoData := fun j => ⟨"t", (j : ℚ), 1, "x"⟩

/-- Behaviour where item 2 fails its metadata lookup and every other item
    succeeds quietly. -/
def bC1 : Nat → ItemStep := fun j =>
  if j = 2 then ⟨StepOutcome.infoNone, false⟩ else ⟨StepOutcome.success (vIdx j), false⟩

/-- Behaviour where item 2 raises `KeyboardInterrupt` inside the `try` block. -/
def bC5 : Nat → ItemStep := fun j =>
  if j = 2 then ⟨StepOutcome.kbInterrupt, false⟩ else ⟨StepOutcome.success (vIdx j), false⟩

/-- A sample channel-enumeration collaborator. -/
def fetchSample : String → Option (List (Option String)) := fun url =>
  if url = "c/videos" then some [some "a", none, some "b", some "d"]
  else some [some "z"]

/-- A collaborator whose result has no `entries` key. -/
def fetchNone : String → Option (List (Option String)) := fun _ => none

/-! ## Loop lemmas and claim theorems -/



lemma runList_skipped (b : Nat → ItemStep) :
    ∀ (l : List String) (i : Nat) (stats : Stats) (sink : List CsvLine),
      (runList b stats sink i l).1.skipped = stats.skipped := by
  intro l
  induction l with
  | nil => intro i stats sink; simp [runList]
  | cons url t ih =>
    intro i stats sink
    simp only [runList]
    rcases ho : (b i).outcome with v | _ | _ | _ | _ <;>
      simp only [ho, process_single_video] <;>
      first
        | rfl
        | (split
           · rfl
           · exact ih _ _ _)

lemma runList_quiet (b : Nat → ItemStep) :
    ∀ (l : List String) (i : Nat) (stats : Stats) (sink : List CsvLine),
      (∀ j, i ≤ j → j < i + l.length → quietStep (b j)) →
      (runList b stats sink i l).2.2 = LoopExit.completed ∧
      (runList b stats sink i l).1.processed + (runList b stats sink i l).1.failed
          = stats.processed + stats.failed + l.length ∧
      (runList b stats sink i l).2.1 = sink ++ runRecords b i l := by
  intro l
  induction l with
  | nil => intro i stats sink _; simp [runList, runRecords]
  | cons url t ih =>
    intro i stats sink h
    obtain ⟨hnk, hp⟩ := h i le_rfl (by simp)
    have ht : ∀ j, i + 1 ≤ j → j < (i + 1) + t.length → quietStep (b j) := by
      intro j h1 h2
      exact h j (by omega) (by simpa using by omega)
    simp only [runList]
    rcases ho : (b i).outcome with v | _ | _ | _ | _ <;>
      simp only [ho, process_single_video, hp, Bool.and_false] <;>
      try (exact absurd ho hnk)
    · obtain ⟨e1, e2, e3⟩ := ih (i + 1) _ _ ht
      refine ⟨by simpa using e1, ?_, ?_⟩
      · simp only [Bool.false_eq_true, if_false] at e2 ⊢
        rw [e2]
        simp
        omega
      · simp only [Bool.false_eq_true, if_false] at e3 ⊢
        rw [e3]
        simp [runRecords, ho]
    · obtain ⟨e1, e2, e3⟩ := ih (i + 1) _ _ ht
      refine ⟨by simpa using e1, ?_, ?_⟩
      · simp only [Bool.false_eq_true, if_false] at e2 ⊢
        rw [e2]
        simp
        omega
      · simp only [Bool.false_eq_true, if_false] at e3 ⊢
        rw [e3]
        simp [runRecords, ho]
    · obtain ⟨e1, e2, e3⟩ := ih (i + 1) _ _ ht
      refine ⟨by simpa using e1, ?_, ?_⟩
      · simp only [Bool.false_eq_true, if_false] at e2 ⊢
        rw [e2]
        simp
        omega
      · simp only [Bool.false_eq_true, if_false] at e3 ⊢
        rw [e3]
        simp [runRecords, ho]
    · obtain ⟨e1, e2, e3⟩ := ih (i + 1) _ _ ht
      refine ⟨by simpa using e1, ?_, ?_⟩
      · simp only [Bool.false_eq_true, if_false] at e2 ⊢
        rw [e2]
        simp
        omega
      · simp only [Bool.false_eq_true, if_false] at e3 ⊢
        rw [e3]
        simp [runRecords, ho]

lemma runList_append_quiet (b : Nat → ItemStep) :
    ∀ (l1 l2 : List String) (i : Nat) (stats : Stats) (sink : List CsvLine),
      (∀ j, i ≤ j → j < i + l1.length → quietStep (b j)) →
      runList b stats sink i (l1 ++ l2) =
        runList b (runList b stats sink i l1).1 (runList b stats sink i l1).2.1
          (i + l1.length) l2 := by
  intro l1
  induction l1 with
  | nil => intro l2 i stats sink _; simp [runList]
  | cons url t ih =>
    intro l2 i stats sink h
    obtain ⟨hnk, hp⟩ := h i le_rfl (by simp)
    have ht : ∀ j, i + 1 ≤ j → j < (i + 1) + t.length → quietStep (b j) := by
      intro j h1 h2
      exact h j (by omega) (by simp; omega)
    have harith : i + (url :: t).length = (i + 1) + t.length := by simp; omega
    simp only [List.cons_append, runList]
    rcases ho : (b i).outcome with v | _ | _ | _ | _ <;>
      simp only [ho, process_single_video, hp, Bool.and_false, Bool.false_eq_true,
        if_false] <;>
      try (exact absurd ho hnk)
    · rw [harith]
      exact ih l2 (i + 1) _ _ ht
    · rw [harith]
      exact ih l2 (i + 1) _ _ ht
    · rw [harith]
      exact ih l2 (i + 1) _ _ ht
    · rw [harith]
      exact ih l2 (i + 1) _ _ ht

lemma runList_success (b : Nat → ItemStep) (V : Nat → VideoData) :
    ∀ (l : List String) (i : Nat) (stats : Stats) (sink : List CsvLine),
      (∀ j, i ≤ j → j < i + l.length → b j = ⟨StepOutcome.success (V j), false⟩) →
      (runList b stats sink i l).1.processed = stats.processed + l.length ∧
      (runList b stats sink i l).1.failed = stats.failed ∧
      (runList b stats sink i l).2.1 = sink ++ successRecords V i l ∧
      (runList b stats sink i l).2.2 = LoopExit.completed := by
  intro l
  induction l with
  | nil => intro i stats sink _; simp [runList, successRecords]
  | cons url t ih =>
    intro i stats sink h
    have hb : b i = ⟨StepOutcome.success (V i), false⟩ := h i le_rfl (by simp)
    have ht : ∀ j, i + 1 ≤ j → j < (i + 1) + t.length → b j = ⟨StepOutcome.success (V j), false⟩ := by
      intro j h1 h2
      exact h j (by omega) (by simp; omega)
    simp only [runList, hb, process_single_video, Bool.and_false, Bool.false_eq_true, if_false]
    obtain ⟨e1, e2, e3, e4⟩ := ih (i + 1) _ _ ht
    refine ⟨?_, ?_, ?_, ?_⟩
    · rw [e1]; simp; omega
    · rw [e2]
    · rw [e3]; simp [successRecords, hb]
    · exact e4

lemma successRecords_length (V : Nat → VideoData) :
    ∀ (i : Nat) (l : List String), (successRecords V i l).length = l.length := by
  intro i l
  induction l generalizing i with
  | nil => simp [successRecords]
  | cons url t ih => simp [successRecords, ih]

lemma runRecords_length (b : Nat → ItemStep) :
    ∀ (l : List String) (i : Nat), (runRecords b i l).length = successCount b i l := by
  intro l
  induction l with
  | nil => intro i; simp [runRecords, successCount]
  | cons url t ih =>
    intro i
    rcases ho : (b i).outcome with v | _ | _ | _ | _ <;>
      simp [runRecords, successCount, ho, isSuccess, ih]
    omega

lemma headerCount_append (k1 k2 : List CsvLine) :
    headerCount (k1 ++ k2) = headerCount k1 + headerCount k2 := by
  induction k1 with
  | nil => simp [headerCount]
  | cons c t ih =>
    cases c <;> simp [headerCount, ih]
    omega

lemma runRecords_headerCount (b : Nat → ItemStep) :
    ∀ (l : List String) (i : Nat), headerCount (runRecords b i l) = 0 := by
  intro l
  induction l with
  | nil => intro i; simp [runRecords, headerCount]
  | cons url t ih =>
    intro i
    rcases ho : (b i).outcome with v | _ | _ | _ | _ <;>
      simp [runRecords, ho, headerCount_append, headerCount, ih]

lemma headerCount_records (rows : List Row) :
    headerCount (rows.map CsvLine.record) = 0 := by
  induction rows with
  | nil => simp [headerCount]
  | cons r t ih => simp [headerCount, ih]

lemma runBatch_cons (b : Nat → ItemStep) (u : String) (t : List String)
    (dest : Option (List CsvLine)) :
    runBatch b (u :: t) dest =
      match process_video_list b (u :: t) dest
          { initStats with total_videos := (u :: t).length } with
      | (s1, k1, LoopExit.aborted) =>
        ⟨s1, some k1, none, false, true⟩
      | (s1, k1, _) =>
        ⟨s1, some k1, some (print_summary s1), false, false⟩ := by
  simp [runBatch]

/-- Claim C10: the `skipped` counter starts at zero and is never incremented by
the batch pipeline, and in an uninterrupted run each attempted item increments
exactly one of `processed` / `failed`, so `processed + failed` equals the
number of enumerated items while `skipped` stays 0. -/
theorem c10_stats_invariant :
    ∀ (b : Nat → ItemStep) (urls : List String) (dest : Option (List CsvLine)),
      (process_playlist b urls dest).stats.skipped = 0 ∧
      ((∀ j, j ≤ urls.length → 1 ≤ j → quietStep (b j)) →
        (process_playlist b urls dest).stats.processed
            + (process_playlist b urls dest).stats.failed = urls.length) := by
  intro b urls dest
  cases urls with
  | nil => simp [process_playlist, runBatch, initStats]
  | cons u t =>
    have hlen : (u :: t).length = t.length + 1 := by simp
    rcases hpv : process_video_list b (u :: t) dest
        { initStats with total_videos := (u :: t).length } with ⟨s1, k1, ex⟩
    have hstats : (process_playlist b (u :: t) dest).stats = s1 := by
      simp only [process_playlist, runBatch_cons, hpv]
      cases ex <;> rfl
    constructor
    · rw [hstats]
      have hs := runList_skipped b (u :: t) 1
        { initStats with total_videos := (u :: t).length }
        (initialSink dest)
      simp only [process_video_list] at hpv
      rw [hpv] at hs
      simpa [initStats] using hs
    · intro hq
      have hq2 : ∀ j, 1 ≤ j → j < 1 + (u :: t).length → quietStep (b j) := by
        intro j h1 h2
        exact hq j (by omega) h1
      obtain ⟨_, e2, _⟩ := runList_quiet b (u :: t) 1
        { initStats with total_videos := (u :: t).length }
        (initialSink dest) hq2
      simp only [process_video_list] at hpv
      rw [hpv] at e2
      rw [hstats]
      simpa [initStats] using e2

/-- Claim C2, counterexample: a destination that already exists but is empty
does not already exist with content, yet the run appends its record without
ever writing a header — refuting the claimed biconditional (header written iff
the destination does not already exist with content). -/
theorem c2_append_semantics_counterexample :
    (process_playlist bOk ["u"] (some [])).dest =
      some [CsvLine.record ⟨1, "t", "u", 10, 2, "txt"⟩] ∧
    headerCount [CsvLine.record ⟨1, "t", "u", 10, 2, "txt"⟩] = 0 :=
  ⟨rfl, rfl⟩

lemma runBatch_quiet (b : Nat → ItemStep) (u : String) (t : List String)
    (dest : Option (List CsvLine))
    (hq : ∀ j, 1 ≤ j → j < 1 + (u :: t).length → quietStep (b j)) :
    runBatch b (u :: t) dest =
      { stats := (process_video_list b (u :: t) dest
            { initStats with total_videos := (u :: t).length }).1,
        dest := some (initialSink dest ++ runRecords b 1 (u :: t)),
        summary := some (print_summary (process_video_list b (u :: t) dest
            { initStats with total_videos := (u :: t).length }).1),
        noVideosNotice := false,
        aborted := false } := by
  rcases hpv : process_video_list b (u :: t) dest
      { initStats with total_videos := (u :: t).length } with ⟨s1, k1, ex⟩
  have hpv2 : runList b { initStats with total_videos := (u :: t).length }
      (initialSink dest) 1 (u :: t) = (s1, k1, ex) := by
    simpa only [process_video_list] using hpv
  obtain ⟨e1, _, e3⟩ := runList_quiet b (u :: t) 1
    { initStats with total_videos := (u :: t).length } (initialSink dest) hq
  rw [hpv2] at e1 e3
  simp only at e1 e3
  subst e1
  simp only [runBatch_cons, hpv, process_video_list, hpv2]
  simp [e3]

/-- Claim C2, amended: the schema header is written iff the destination file
does not already exist (an existing empty file is appended to without any
header); into a destination holding one header and H prior rows, a quiet run
appends exactly its successful records after them, leaving exactly one header
line and 1 + H + successes lines in total. -/
theorem c2_append_semantics :
    ∀ (b : Nat → ItemStep) (urls : List String),
      (∀ j, j ≤ urls.length → 1 ≤ j → quietStep (b j)) → urls ≠ [] →
      (∀ prior : List CsvLine,
          (process_playlist b urls (some prior)).dest =
            some (prior ++ runRecords b 1 urls)) ∧
      (process_playlist b urls none).dest =
        some (CsvLine.header :: runRecords b 1 urls) ∧
      (∀ rows : List Row,
          headerCount ((process_playlist b urls
              (some (CsvLine.header :: rows.map CsvLine.record))).dest.getD []) = 1 ∧
          ((process_playlist b urls
              (some (CsvLine.header :: rows.map CsvLine.record))).dest.getD []).length
            = 1 + rows.length + successCount b 1 urls) := by
  intro b urls hq hne
  cases urls with
  | nil => exact absurd rfl hne
  | cons u t =>
    have hq2 : ∀ j, 1 ≤ j → j < 1 + (u :: t).length → quietStep (b j) := by
      intro j h1 h2
      exact hq j (by simp at h2 ⊢; omega) h1
    refine ⟨?_, ?_, ?_⟩
    · intro prior
      rw [process_playlist, runBatch_quiet b u t (some prior) hq2]
      rfl
    · rw [process_playlist, runBatch_quiet b u t none hq2]
      simp [initialSink]
    · intro rows
      rw [process_playlist,
        runBatch_quiet b u t (some (CsvLine.header :: rows.map CsvLine.record)) hq2]
      constructor
      · simp [initialSink, headerCount, headerCount_append, headerCount_records,
          runRecords_headerCount]
      · simp [initialSink, runRecords_length]
        omega

lemma runBatch_ne (b : Nat → ItemStep) (urls : List String)
    (dest : Option (List CsvLine)) (hne : urls ≠ []) :
    runBatch b urls dest =
      match process_video_list b urls dest
          { initStats with total_videos := urls.length } with
      | (s1, k1, LoopExit.aborted) =>
        ⟨s1, some k1, none, false, true⟩
      | (s1, k1, _) =>
        ⟨s1, some k1, some (print_summary s1), false, false⟩ := by
  cases urls with
  | nil => exact absurd rfl hne
  | cons u t => simp [runBatch]

lemma runBatch_quiet_ne (b : Nat → ItemStep) (urls : List String)
    (dest : Option (List CsvLine)) (hne : urls ≠ [])
    (hq : ∀ j, 1 ≤ j → j < 1 + urls.length → quietStep (b j)) :
    runBatch b urls dest =
      { stats := (process_video_list b urls dest
            { initStats with total_videos := urls.length }).1,
        dest := some (initialSink dest ++ runRecords b 1 urls),
        summary := some (print_summary (process_video_list b urls dest
            { initStats with total_videos := urls.length }).1),
        noVideosNotice := false,
        aborted := false } := by
  rcases hpv : process_video_list b urls dest
      { initStats with total_videos := urls.length } with ⟨s1, k1, ex⟩
  have hpv2 : runList b { initStats with total_videos := urls.length }
      (initialSink dest) 1 urls = (s1, k1, ex) := by
    simpa only [process_video_list] using hpv
  obtain ⟨e1, _, e3⟩ := runList_quiet b urls 1
    { initStats with total_videos := urls.length } (initialSink dest) hq
  rw [hpv2] at e1 e3
  simp only at e1 e3
  subst e1
  simp only [runBatch_ne b urls dest hne, hpv]
  simp [e3]

lemma runRecords_append (b : Nat → ItemStep) :
    ∀ (x y : List String) (i : Nat),
      runRecords b i (x ++ y) = runRecords b i x ++ runRecords b (i + x.length) y := by
  intro x
  induction x with
  | nil => intro y i; simp [runRecords]
  | cons u t ih =>
    intro y i
    simp only [List.cons_append, runRecords, List.append_eq]
    rw [ih y (i + 1)]
    have harith : i + (u :: t).length = (i + 1) + t.length := by simp; omega
    rw [harith, List.append_assoc]

lemma runRecords_success_window (b : Nat → ItemStep) (V : Nat → VideoData) :
    ∀ (l : List String) (i : Nat),
      (∀ j, i ≤ j → j < i + l.length → b j = ⟨StepOutcome.success (V j), false⟩) →
      runRecords b i l = successRecords V i l := by
  intro l
  induction l with
  | nil => intro i _; simp [runRecords, successRecords]
  | cons u t ih =>
    intro i h
    have hb : b i = ⟨StepOutcome.success (V i), false⟩ := h i le_rfl (by simp)
    simp only [runRecords, successRecords, hb]
    rw [ih (i + 1) (by intro j h1 h2; exact h j (by omega) (by simp; omega))]
    simp

lemma runList_one_failure (b : Nat → ItemStep) (V : Nat → VideoData)
    (l1 l2 : List String) (uk : String) (stats : Stats) (sink : List CsvLine)
    (hsucc : ∀ j, j ≤ (l1 ++ uk :: l2).length → 1 ≤ j → j ≠ l1.length + 1 →
      b j = ⟨StepOutcome.success (V j), false⟩)
    (hfail : (b (l1.length + 1)).outcome = StepOutcome.infoNone ∨
      (b (l1.length + 1)).outcome = StepOutcome.downloadNone)
    (hpause : (b (l1.length + 1)).pauseInterrupt = false) :
    (runList b stats sink 1 (l1 ++ uk :: l2)).1.processed
        = stats.processed + (l1.length + l2.length) ∧
    (runList b stats sink 1 (l1 ++ uk :: l2)).1.failed = stats.failed + 1 := by
  have hN : (l1 ++ uk :: l2).length = l1.length + l2.length + 1 := by simp; omega
  have hl1 : ∀ j, 1 ≤ j → j < 1 + l1.length → b j = ⟨StepOutcome.success (V j), false⟩ := by
    intro j h1 h2
    exact hsucc j (by omega) h1 (by omega)
  have hql1 : ∀ j, 1 ≤ j → j < 1 + l1.length → quietStep (b j) := by
    intro j h1 h2
    rw [hl1 j h1 h2]
    exact ⟨by simp, rfl⟩
  rw [runList_append_quiet b l1 (uk :: l2) 1 stats sink hql1]
  obtain ⟨p1, f1, _, _⟩ := runList_success b V l1 1 stats sink hl1
  have harith : 1 + l1.length = l1.length + 1 := by omega
  rw [harith]
  rcases hfail with h | h <;>
    [skip; skip] <;>
    · simp only [runList, h, process_single_video, hpause, Bool.and_false,
        Bool.false_eq_true, if_false]
      obtain ⟨p2, f2, _, _⟩ := runList_success b V l2 (l1.length + 1 + 1)
        { (runList b stats sink 1 l1).1 with
            failed := (runList b stats sink 1 l1).1.failed + 1 }
        (runList b stats sink 1 l1).2.1
        (by
          intro j h1 h2
          exact hsucc j (by omega) (by omega) (by omega))
      rw [p2, f2]
      simp only []
      constructor
      · rw [p1]
        omega
      · rw [f1]

/-- Claim C1: in a batch of N items where exactly one item k fails acquisition
(metadata lookup or download returns nothing) and every other item succeeds,
the loop never aborts: `failed` ends at 1, `processed` ends at N − 1, a summary
is produced, and the sink receives exactly N − 1 records, one per item other
than k, including every item after k. -/
theorem c1_batch_resilience :
    ∀ (V : Nat → VideoData) (b : Nat → ItemStep) (l1 l2 : List String) (uk : String)
      (prior : List CsvLine),
      (∀ j, j ≤ (l1 ++ uk :: l2).length → 1 ≤ j → j ≠ l1.length + 1 →
        b j = ⟨StepOutcome.success (V j), false⟩) →
      ((b (l1.length + 1)).outcome = StepOutcome.infoNone ∨
        (b (l1.length + 1)).outcome = StepOutcome.downloadNone) →
      (b (l1.length + 1)).pauseInterrupt = false →
      (process_playlist b (l1 ++ uk :: l2) (some prior)).stats.failed = 1 ∧
      (process_playlist b (l1 ++ uk :: l2) (some prior)).stats.processed
          = (l1 ++ uk :: l2).length - 1 ∧
      (process_playlist b (l1 ++ uk :: l2) (some prior)).aborted = false ∧
      (process_playlist b (l1 ++ uk :: l2) (some prior)).summary.isSome = true ∧
      (process_playlist b (l1 ++ uk :: l2) (some prior)).dest =
        some (prior ++ (successRecords V 1 l1 ++ successRecords V (l1.length + 2) l2)) ∧
      (successRecords V 1 l1 ++ successRecords V (l1.length + 2) l2).length
        = (l1 ++ uk :: l2).length - 1 := by
  intro V b l1 l2 uk prior hsucc hfail hpause
  have hne : l1 ++ uk :: l2 ≠ [] := by simp
  have hN : (l1 ++ uk :: l2).length = l1.length + l2.length + 1 := by simp; omega
  have hq : ∀ j, 1 ≤ j → j < 1 + (l1 ++ uk :: l2).length → quietStep (b j) := by
    intro j h1 h2
    by_cases hj : j = l1.length + 1
    · subst hj
      rcases hfail with h | h
      · exact ⟨by simp [h], hpause⟩
      · exact ⟨by simp [h], hpause⟩
    · rw [hsucc j (by omega) h1 hj]
      exact ⟨by simp, rfl⟩
  rw [process_playlist, runBatch_quiet_ne b _ (some prior) hne hq]
  obtain ⟨hp, hf⟩ := runList_one_failure b V l1 l2 uk
    { initStats with total_videos := (l1 ++ uk :: l2).length }
    (initialSink (some prior)) hsucc hfail hpause
  have hrec : runRecords b 1 (l1 ++ uk :: l2) =
      successRecords V 1 l1 ++ successRecords V (l1.length + 2) l2 := by
    rw [runRecords_append b l1 (uk :: l2) 1]
    have hrecl1 : runRecords b 1 l1 = successRecords V 1 l1 := by
      apply runRecords_success_window
      intro j hj1 hj2
      exact hsucc j (by omega) hj1 (by omega)
    have harith : 1 + l1.length = l1.length + 1 := by omega
    have hrect : runRecords b (1 + l1.length) (uk :: l2)
        = successRecords V (l1.length + 2) l2 := by
      rw [harith]
      have hrecl2 : runRecords b (l1.length + 1 + 1) l2
          = successRecords V (l1.length + 2) l2 := by
        apply runRecords_success_window
        intro j hj1 hj2
        exact hsucc j (by omega) (by omega) (by omega)
      rcases hfail with h | h <;>
        · simp only [runRecords, h]
          rw [hrecl2]
          simp
    rw [hrecl1, hrect]
  refine ⟨?_, ?_, rfl, rfl, ?_, ?_⟩
  · simp only [process_video_list]
    rw [hf]
    simp [initStats]
  · simp only [process_video_list]
    rw [hp]
    simp [initStats]
  · simp only [initialSink]
    rw [hrec]
  · rw [List.length_append, successRecords_length, successRecords_length]
    omega

/-- Claim C5, counterexample: a keyboard interrupt delivered during the
inter-item pause after item 1 of 2 was handled aborts the run with no summary —
the interrupt lands outside the per-item try block, so it propagates as an
error, contrary to the claim that the run proceeds to a summary. -/
theorem c5_cancellation_counterexample :
    (process_playlist bPause ["u1", "u2"] none).aborted = true ∧
    (process_playlist bPause ["u1", "u2"] none).summary = none ∧
    (process_playlist bPause ["u1", "u2"] none).dest =
      some [CsvLine.header, CsvLine.record ⟨1, "t", "u1", 10, 2, "txt"⟩] :=
  ⟨rfl, rfl, rfl⟩

/-- Claim C5, amended: a keyboard interrupt raised while processing item i+1
(inside the per-item try block) stops the loop immediately without attempting
further items; the i records already written are preserved, statistics show i
processed and 0 failed, and the run produces a summary instead of raising an
error.  An interrupt during the inter-item pause instead propagates as an
error without a summary. -/
theorem c5_cancellation :
    ∀ (V : Nat → VideoData) (b : Nat → ItemStep) (l1 l2 : List String) (u : String)
      (prior : List CsvLine),
      (∀ j, j ≤ l1.length → 1 ≤ j → b j = ⟨StepOutcome.success (V j), false⟩) →
      (b (l1.length + 1)).outcome = StepOutcome.kbInterrupt →
      (process_playlist b (l1 ++ u :: l2) (some prior)).aborted = false ∧
      (process_playlist b (l1 ++ u :: l2) (some prior)).dest =
        some (prior ++ successRecords V 1 l1) ∧
      (successRecords V 1 l1).length = l1.length ∧
      (process_playlist b (l1 ++ u :: l2) (some prior)).stats.processed = l1.length ∧
      (process_playlist b (l1 ++ u :: l2) (some prior)).stats.failed = 0 ∧
      (process_playlist b (l1 ++ u :: l2) (some prior)).summary =
        some (print_summary (process_playlist b (l1 ++ u :: l2) (some prior)).stats) := by
  intro V b l1 l2 u prior hsucc hk
  have hne : l1 ++ u :: l2 ≠ [] := by simp
  have hl1 : ∀ j, 1 ≤ j → j < 1 + l1.length → b j = ⟨StepOutcome.success (V j), false⟩ := by
    intro j h1 h2
    exact hsucc j (by omega) h1
  have hql1 : ∀ j, 1 ≤ j → j < 1 + l1.length → quietStep (b j) := by
    intro j h1 h2
    rw [hl1 j h1 h2]
    exact ⟨by simp, rfl⟩
  have harith : 1 + l1.length = l1.length + 1 := by omega
  have hpv : process_video_list b (l1 ++ u :: l2) (some prior)
      { initStats with total_videos := (l1 ++ u :: l2).length } =
      ((runList b { initStats with total_videos := (l1 ++ u :: l2).length }
          (initialSink (some prior)) 1 l1).1,
        (runList b { initStats with total_videos := (l1 ++ u :: l2).length }
          (initialSink (some prior)) 1 l1).2.1,
        LoopExit.brokeOut) := by
    simp only [process_video_list]
    rw [runList_append_quiet b l1 (u :: l2) 1 _ _ hql1, harith]
    simp only [runList, hk, process_single_video]
  obtain ⟨p1, f1, s1, _⟩ := runList_success b V l1 1
    { initStats with total_videos := (l1 ++ u :: l2).length }
    (initialSink (some prior)) hl1
  rw [process_playlist, runBatch_ne b _ _ hne, hpv]
  refine ⟨rfl, ?_, successRecords_length V 1 l1, ?_, ?_, rfl⟩
  · rw [s1]
    rfl
  · rw [p1]
    simp [initStats]
  · rw [f1]
    simp [initStats]

/-- Claim C6, counterexample: on an empty enumeration the batch returns early
after printing the no-videos notice and produces no summary at all, refuting
the claimed zero-item summary. -/
theorem c6_empty_batch_counterexample :
    (process_playlist (fun _ => ⟨StepOutcome.infoNone, false⟩) [] none).summary = none ∧
    (process_playlist (fun _ => ⟨StepOutcome.infoNone, false⟩) [] none).noVideosNotice
      = true :=
  ⟨rfl, rfl⟩

/-- Claim C6, amended: on an empty enumeration, `process_playlist` and
`process_channel` terminate successfully without error, leave the destination
and the zeroed statistics untouched, print the no-videos notice, and do not
produce a counters summary. -/
theorem c6_empty_batch :
    ∀ (b : Nat → ItemStep) (dest : Option (List CsvLine))
      (fetch : String → Option (List (Option String))) (cu : String) (limit : Option Nat),
      process_playlist b [] dest = ⟨initStats, dest, none, true, false⟩ ∧
      (get_channel_videos fetch cu limit = [] →
        process_channel b fetch cu limit dest = ⟨initStats, dest, none, true, false⟩) := by
  intro b dest fetch cu limit
  constructor
  · rfl
  · intro h
    unfold process_channel
    rw [h]
    rfl

/-- Claim C8, counterexample: a run whose only success has zero source duration
but positive inference time yields a summary containing a transcription-time
row but no speed-ratio row, although cumulative inference time is positive —
refuting the claim that the ratio is presented whenever inference time > 0. -/
theorem c8_speed_ratio_counterexample :
    (process_playlist bZeroDur ["u"] none).stats.total_transcription_time = 1 ∧
    ((process_playlist bZeroDur ["u"] none).summary).map Summary.speedRow = some none ∧
    ((process_playlist bZeroDur ["u"] none).summary).map Summary.transRow
      = some (some (1 / 60)) := by
  have h1 : (process_playlist bZeroDur ["u"] none).stats.total_transcription_time
      = 0 + 1 := rfl
  have h2 : (process_playlist bZeroDur ["u"] none).stats.total_duration = 0 + 0 := rfl
  have hsum : (process_playlist bZeroDur ["u"] none).summary
      = some (print_summary (process_playlist bZeroDur ["u"] none).stats) := rfl
  refine ⟨?_, ?_, ?_⟩
  · rw [h1]
    norm_num
  · rw [hsum]
    simp only [Option.map_some, print_summary, h1, h2]
    norm_num
  · rw [hsum]
    simp only [Option.map_some, print_summary, h1, h2]
    norm_num

/-- Claim C8, amended: the processing-speed ratio is presented iff both the
cumulative inference time and the cumulative source duration are positive, is
omitted otherwise, and whenever presented its divisor (the inference time) is
positive — the division is never evaluated with a zero divisor. -/
theorem c8_speed_ratio :
    ∀ stats : Stats,
      (0 < stats.total_transcription_time → 0 < stats.total_duration →
        (print_summary stats).speedRow
          = some (stats.total_duration / stats.total_transcription_time)) ∧
      (¬(0 < stats.total_transcription_time ∧ 0 < stats.total_duration) →
        (print_summary stats).speedRow = none) ∧
      (∀ r, (print_summary stats).speedRow = some r →
        0 < stats.total_transcription_time ∧
          r = stats.total_duration / stats.total_transcription_time) := by
  intro stats
  simp only [print_summary]
  refine ⟨?_, ?_, ?_⟩
  · intro h1 h2
    rw [if_pos h1, if_pos h2]
  · intro h
    split_ifs with g1 g2
    · exact absurd ⟨g1, g2⟩ h
    · rfl
    · rfl
  · intro r hr
    split_ifs at hr with g1 g2
    cases hr
    exact ⟨g1, rfl⟩

/-- Claim C3: the backend resolution table — auto (`none`) picks MLX iff the
capability is present; force-on picks MLX when present and warns and falls
back to the generic backend when absent; force-off always resolves to the
generic backend; and whenever the resolution settles on the generic backend
while it is unavailable, construction fails fast with the backend-unavailable
error (captured by `genericResolve`). -/
theorem c3_backend_resolution :
    ∀ e : PyEnv,
      (engineInit "base" none e =
        if mlx_available e then Except.ok ⟨Backend.mlx, false⟩ else genericResolve e false) ∧
      (engineInit "base" (some true) e =
        if mlx_available e then Except.ok ⟨Backend.mlx, false⟩ else genericResolve e true) ∧
      (engineInit "base" (some false) e = genericResolve e false) := by
  intro e
  rcases e with ⟨a, m, w⟩
  cases a <;> cases m <;> cases w <;> exact ⟨rfl, rfl, rfl⟩

/-- Claim C7: `transcribe_video` deletes the temporary extracted audio file on
every exit path — extraction, metadata probing or transcription succeeding or
raising — unless `keep_audio` is true, in which case the file is retained. -/
theorem c7_tmp_audio_cleanup :
    ∀ (env : VideoRunEnv) (keep_audio : Bool),
      (transcribe_video env keep_audio).tmpAudioExists = keep_audio := by
  intro env k
  cases k <;> rfl

/-- Claim C9: `get_channel_videos` queries the channel URL with the suffix
`/videos` appended iff a truthy limit is given; with a truthy limit it
truncates the enumerated list to at most `limit` entries, and with no limit
(or a zero one) it queries the URL unchanged and returns all entries. -/
theorem c9_channel_limit :
    ∀ (fetch : String → Option (List (Option String))) (cu : String),
      (∀ limit : Option Nat,
        channelQueryUrl cu limit = cu ++ "/videos" ↔ limitTruthy limit = true) ∧
      (∀ n : Nat, n ≠ 0 →
        get_channel_videos fetch cu (some n) =
          (match fetch (cu ++ "/videos") with
           | some entries => (extractUrls entries).take n
           | none => []) ∧
        (get_channel_videos fetch cu (some n)).length ≤ n) ∧
      get_channel_videos fetch cu none =
        (match fetch cu with
         | some entries => extractUrls entries
         | none => []) := by
  intro fetch cu
  refine ⟨?_, ?_, ?_⟩
  · intro limit
    constructor
    · intro h
      by_contra hf
      have hfq : limitTruthy limit = false := by
        cases hlt : limitTruthy limit
        · rfl
        · exact absurd hlt hf
      rw [channelQueryUrl, hfq] at h
      simp only [Bool.false_eq_true, if_false] at h
      have hlen := congrArg String.length h
      rw [String.length_append] at hlen
      have h7 : ("/videos" : String).length = 7 := rfl
      omega
    · intro h
      rw [channelQueryUrl, h]
      simp
  · intro n hn
    have ht : limitTruthy (some n) = true := by
      simp [limitTruthy, hn]
    constructor
    · rw [get_channel_videos, channelQueryUrl, ht]
      simp only [if_true]
      cases hf : fetch (cu ++ "/videos") with
      | none => rfl
      | some entries =>
        simp only [ht, if_true, Option.getD]
    · rw [get_channel_videos, channelQueryUrl, ht]
      simp only [if_true]
      cases hf : fetch (cu ++ "/videos") with
      | none => simp
      | some entries =>
        simp only [ht, if_true, Option.getD]
        simp
  · rw [get_channel_videos, channelQueryUrl]
    have hf : limitTruthy none = false := rfl
    rw [hf]
    simp only [Bool.false_eq_true, if_false]

lemma dotComma_digitChar : ∀ k, k < 10 → dotComma (digitChar k) = digitChar k := by decide

lemma natDigitsAux_map (fuel : Nat) :
    ∀ (n : Nat) (acc : List Char), acc.map dotComma = acc →
      (natDigitsAux fuel n acc).map dotComma = natDigitsAux fuel n acc := by
  induction fuel with
  | zero => intro n acc h; simpa [natDigitsAux] using h
  | succ fuel ih =>
    intro n acc h
    have hd : dotComma (digitChar (n % 10)) = digitChar (n % 10) :=
      dotComma_digitChar _ (Nat.mod_lt _ (by norm_num))
    simp only [natDigitsAux]
    split
    · simp [hd, h]
    · exact ih (n / 10) _ (by simp [hd, h])

lemma natChars_map (n : Nat) : (natChars n).map dotComma = natChars n :=
  natDigitsAux_map _ _ _ (by simp)

lemma zpadL_map (w n : Nat) : (zpadL w n).map dotComma = zpadL w n := by
  have h0 : dotComma '0' = '0' := by decide
  simp [zpadL, natChars_map, h0]

/-- Claim C4: for every duration d ≥ 0 the SRT and VTT timestamps have the
claimed shape `HH:MM:SS,mmm` / `HH:MM:SS.mmm` with `HH = floor(d/3600)` and
`MM = floor((d mod 3600)/60)` zero-padded to 2 digits and the seconds field
`d mod 60` rounded to 3 decimal places; in particular d = 3661.5 renders as
`01:01:01,500` and `01:01:01.500`. -/
theorem c4_timestamp_rendering :
    (∀ d : ℚ, 0 ≤ d →
      format_timestamp_srt d = srt_spec d ∧ format_timestamp_vtt d = vtt_spec d) ∧
    format_timestamp_srt ((7323 : ℚ)/2) = "01:01:01,500" ∧
    format_timestamp_vtt ((7323 : ℚ)/2) = "01:01:01.500" := by
  have hc : dotComma ':' = ':' := by decide
  have hp : dotComma '.' = ',' := by decide
  have h1 : ⌊((7323:ℚ)/2) / 3600⌋ = 1 := by norm_num
  have h2 : qmod ((7323:ℚ)/2) 3600 = 123/2 := by norm_num [qmod]
  have h3 : ⌊((123:ℚ)/2) / 60⌋ = 1 := by norm_num
  have h4 : qmod ((7323:ℚ)/2) 60 = 3/2 := by norm_num [qmod]
  have h5 : roundHalfEven ((3:ℚ)/2 * 1000) = 1500 := by norm_num [roundHalfEven]
  refine ⟨fun d _ => ⟨?_, rfl⟩, ?_, ?_⟩
  · simp only [format_timestamp_srt, srt_spec, timestampChars, timestampSpec, fmt63,
      secondsFieldSpec, List.map_append, List.map_cons, zpadL_map, hc, hp]
  · simp only [format_timestamp_srt, timestampChars, fmt63, h1, h2, h3, h4, h5]
    decide
  · simp only [format_timestamp_vtt, timestampChars, fmt63, h1, h2, h3, h4, h5]
    decide

/-- Witness for claim C4 at the concrete duration 2. -/
theorem c4_timestamp_rendering_witness :
    format_timestamp_srt 2 = srt_spec 2 ∧ format_timestamp_vtt 2 = vtt_spec 2 :=
  c4_timestamp_rendering.1 2 (by norm_num)

/-- Witness for claim C1: three items, item 2 fails its metadata lookup. -/
theorem c1_batch_resilience_witness :
    (process_playlist bC1 ["a", "b", "c"] (some [])).stats.failed = 1 ∧
    (process_playlist bC1 ["a", "b", "c"] (some [])).dest =
      some ([] ++ (successRecords vIdx 1 ["a"] ++ successRecords vIdx 3 ["c"])) := by
  have h1 : ∀ j, j ≤ (["a"] ++ "b" :: ["c"]).length → 1 ≤ j → j ≠ ["a"].length + 1 →
      bC1 j = ⟨StepOutcome.success (vIdx j), false⟩ := by
    intro j hj hj1 hj2
    simp only [List.length_append, List.length_cons, List.length_nil] at hj
    simp only [List.length_cons, List.length_nil] at hj2
    interval_cases j
    · rfl
    · exact absurd rfl hj2
    · rfl
  have h2 : (bC1 (["a"].length + 1)).outcome = StepOutcome.infoNone ∨
      (bC1 (["a"].length + 1)).outcome = StepOutcome.downloadNone := Or.inl rfl
  have h3 : (bC1 (["a"].length + 1)).pauseInterrupt = false := rfl
  have h := c1_batch_resilience vIdx bC1 ["a"] ["c"] "b" [] h1 h2 h3
  exact ⟨h.1, h.2.2.2.2.1⟩

/-- Witness for claim C2 (amended) at an absent destination. -/
theorem c2_append_semantics_witness :
    (process_playlist bOk ["u"] none).dest =
      some (CsvLine.header :: runRecords bOk 1 ["u"]) := by
  have hq : ∀ j, j ≤ (["u"] : List String).length → 1 ≤ j → quietStep (bOk j) := by
    intro j _ _
    exact ⟨by simp [bOk], rfl⟩
  exact (c2_append_semantics bOk ["u"] hq (by simp)).2.1

/-- Witness for claim C5 (amended): interrupt inside item 2 of 3. -/
theorem c5_cancellation_witness :
    (process_playlist bC5 ["a", "b", "c"] (some [])).aborted = false ∧
    (process_playlist bC5 ["a", "b", "c"] (some [])).dest =
      some ([] ++ successRecords vIdx 1 ["a"]) := by
  have h1 : ∀ j, j ≤ (["a"] : List String).length → 1 ≤ j →
      bC5 j = ⟨StepOutcome.success (vIdx j), false⟩ := by
    intro j hj hj1
    simp only [List.length_cons, List.length_nil] at hj
    interval_cases j
    rfl
  have h2 : (bC5 (["a"].length + 1)).outcome = StepOutcome.kbInterrupt := rfl
  have h := c5_cancellation vIdx bC5 ["a"] ["c"] "b" [] h1 h2
  exact ⟨h.1, h.2.1⟩

/-- Witness for claim C6 (amended) on an empty channel enumeration. -/
theorem c6_empty_batch_witness :
    process_channel bOk fetchNone "c" none none =
      ⟨initStats, none, none, true, false⟩ :=
  (c6_empty_batch bOk none fetchNone "c" none).2 rfl

/-- Witness for claim C8 (amended) at positive duration and inference time. -/
theorem c8_speed_ratio_witness :
    (print_summary ⟨1, 1, 0, 0, (10 : ℚ), (2 : ℚ)⟩).speedRow = some (10 / 2) :=
  (c8_speed_ratio ⟨1, 1, 0, 0, (10 : ℚ), (2 : ℚ)⟩).1 (by norm_num) (by norm_num)

/-- Witness for claim C9 at a concrete collaborator and limit 2. -/
theorem c9_channel_limit_witness :
    get_channel_videos fetchSample "c" (some 2) =
      (match fetchSample ("c" ++ "/videos") with
       | some entries => (extractUrls entries).take 2
       | none => []) ∧
    (get_channel_videos fetchSample "c" (some 2)).length ≤ 2 :=
  (c9_channel_limit fetchSample "c").2.1 2 (by decide)

/-- Witness for claim C10: two quiet successes. -/
theorem c10_stats_invariant_witness :
    (process_playlist bOk ["u", "v"] none).stats.processed
        + (process_playlist bOk ["u", "v"] none).stats.failed = 2 := by
  have hq : ∀ j, j ≤ (["u", "v"] : List String).length → 1 ≤ j → quietStep (bOk j) := by
    intro j _ _
    exact ⟨by simp [bOk], rfl⟩
  exact (c10_stats_invariant bOk ["u", "v"] none).2 hq

end Vidscribe
